import Mathlib

/-!
Verification of the record/replay core of `game_test_py`
(`src/game_test_py/tools/recorder.py`).

The development shallowly embeds the recorder's data model and
operations:

* JSON values are an inductive tree (`JsonVal`); Python's numeric JSON
  payloads (both `int` and `float`) round-trip exactly through the
  text layer (`json.dumps` prints `repr(float)`, which parses back to
  the identical value), so numbers are carried by the exact type `ℚ`.
* `RecordedEvent` mirrors the dataclass with fields `t`, `dt`, `data`;
  `data` is the Python dict, modelled as an association list of JSON
  values (treated as having distinct keys, as Python dicts do).
* Capture is modelled sequentially: the pynput listener invokes one
  handler per observed input, and once the stop event is set the
  listeners are stopped, so later inputs are not handled.  Each
  observed input carries the `time.perf_counter()` reading at the
  instant of the callback and the outcome of the foreground-window
  query at that instant.
* Replay is modelled by a dispatch function returning `Except`: a
  Python `KeyError` / `AttributeError` / `TypeError` raised while
  reading a record's fields becomes an `error` value, and an
  exception raised by the synthetic-input emitter is modelled by an
  emit oracle.
-/

namespace GameTest

/-- A JSON value as produced by `json.loads`.  Numbers are carried
exactly by `ℚ` (Python round-trips both ints and floats through JSON
text without loss). -/
inductive JsonVal where
  | str (s : String)
  | num (q : ℚ)
  | bool (b : Bool)
  | obj (fields : List (String × JsonVal))
  | arr (items : List JsonVal)

/-- The `RecordedEvent` dataclass: fields `t` (event-kind string), `dt`
(elapsed seconds, exact carrier for the float), `data` (kind-specific
dict). -/
structure RecordedEvent where
  t : String
  dt : ℚ
  data : List (String × JsonVal)

/-- Dictionary lookup by field name (Python `d[k]` on a dict with
distinct keys, and the name-based field access of `RecordedEvent(**e)`). -/
def lookupField (kvs : List (String × JsonVal)) (k : String) : Option JsonVal :=
  (kvs.find? (fun p => p.1 == k)).map (fun p => p.2)

/-- Serialization of one event, `asdict(e)`, as emitted by
`json.dumps([asdict(e) for e in self._events], ...)` in
`ActionRecorder.record` (recorder.py:69-74). -/
def serializeEvent (e : RecordedEvent) : JsonVal :=
  .obj [(("t"), .str e.t), (("dt"), .num e.dt), (("data"), .obj e.data)]

/-- The serialized payload: a JSON array of the event dicts. -/
def serialize (evs : List RecordedEvent) : JsonVal :=
  .arr (evs.map serializeEvent)

/-- Keyword construction `RecordedEvent(**e)` in `ActionReplayer.replay` (recorder.py:159):
keyword construction from a parsed JSON object.  It succeeds exactly
when the object has the three keys `t`, `dt`, `data` and no others
(Python raises `TypeError` on a missing or unexpected keyword), with
the shapes the dataclass fields declare; lookups are by field name,
so field order in the object is irrelevant. -/
def parseEvent : JsonVal → Option RecordedEvent
  | .obj kvs =>
    if kvs.length = 3 then
      match lookupField kvs ("t"), lookupField kvs ("dt"), lookupField kvs ("data") with
      | some (.str t), some (.num dt), some (.obj data) => some ⟨t, dt, data⟩
      | _, _, _ => none
    else none
  | _ => none

/-- The list comprehension `[RecordedEvent(**e) for e in raw]`
(recorder.py:159): parses each record in order; the first failure
propagates. -/
def parseEvents : List JsonVal → Option (List RecordedEvent)
  | [] => some []
  | v :: rest =>
    match parseEvent v with
    | some e => (parseEvents rest).map (fun es => e :: es)
    | none => none

/-- Deserialization, `[RecordedEvent(**e) for e in json.loads(text)]`
(recorder.py:158-159): the persisted payload parsed back into the
event sequence. -/
def deserialize : JsonVal → Option (List RecordedEvent)
  | .arr items => parseEvents items
  | _ => none

lemma parseEvent_serializeEvent (e : RecordedEvent) :
    parseEvent (serializeEvent e) = some e := rfl

/-- C1: For every recorded event sequence, deserializing the
serialized text yields a sequence equal to the original
field-for-field, with the elapsed time `dt` preserved exactly
(serialization is `ActionRecorder.record`'s JSON emission of the
`t`/`dt`/`data` records; deserialization is `ActionReplayer.replay`'s
parse back into `RecordedEvent`). -/
theorem codec_roundtrip (evs : List RecordedEvent) :
    deserialize (serialize evs) = some evs := by
  induction evs with
  | nil => rfl
  | cons e rest ih =>
    simp only [serialize, deserialize, List.map_cons, parseEvents,
      parseEvent_serializeEvent]
    simpa [serialize, deserialize] using ih

/-! ## Key model and the key-name codec -/

/-- A pynput key value: either a `keyboard.KeyCode` (with an optional
virtual-key code and an optional character string) or a member of the
`keyboard.Key` enum of named special keys, whose `str()` is the
member name prefixed with `Key.`. -/
inductive PynputKey where
  | keyCode (vk : Option Nat) (char : Option String)
  | named (name : String)
deriving DecidableEq, Repr

/-- The member names of the `pynput.keyboard.Key` enum (the values
`getattr(keyboard.Key, name)` resolves; any other name raises
`AttributeError`). -/
def keyNames : List String :=
  [("alt"), ("alt_l"), ("alt_r"), ("alt_gr"), ("backspace"), ("caps_lock"),
   ("cmd"), ("cmd_l"), ("cmd_r"), ("ctrl"), ("ctrl_l"), ("ctrl_r"),
   ("delete"), ("down"), ("end"), ("enter"), ("esc"),
   ("f1"), ("f2"), ("f3"), ("f4"), ("f5"), ("f6"), ("f7"), ("f8"),
   ("f9"), ("f10"), ("f11"), ("f12"), ("f13"), ("f14"), ("f15"), ("f16"),
   ("f17"), ("f18"), ("f19"), ("f20"),
   ("home"), ("insert"), ("left"), ("media_next"), ("media_play_pause"),
   ("media_previous"), ("media_volume_down"), ("media_volume_mute"),
   ("media_volume_up"), ("menu"), ("num_lock"), ("page_down"), ("page_up"),
   ("pause"), ("print_screen"), ("right"), ("scroll_lock"),
   ("shift"), ("shift_l"), ("shift_r"), ("space"), ("tab"), ("up")]

/-- Encoding, `_key_to_str` (recorder.py:198-204): a `KeyCode` whose `char` is
not `None` maps to that character string; any other key maps to
`str(key)` — for a `Key` member that is `Key.<name>`, for a
`KeyCode` without a character it is `<vk>`. -/
def key_to_str : PynputKey → String
  | .keyCode _ (some c) => c
  | .keyCode vk none => ("<") ++ (match vk with | some n => toString n | none => ("None")) ++ (">")
  | .named n => ("Key.") ++ n

/-- Decoding, `_str_to_key` (recorder.py:207-215).  The source tests
`s.startswith("Key.")` and then takes `s.split(".", 1)[1]`; since the
prefix `Key` contains no dot, the first dot of such a string sits
right after `Key`, so the name is exactly the remainder after the
four prefix characters — modelled by matching the character list.
The name is resolved with `getattr(keyboard.Key, name)`
(`AttributeError`, i.e. `none`, when it is not a member).  Every
other string — the single-character case and the documented fallback
alike — becomes `KeyCode.from_char(s)`, a `KeyCode` with no
virtual-key code carrying `s` as its character. -/
def str_to_key (s : String) : Option PynputKey :=
  match s.data with
  | 'K' :: 'e' :: 'y' :: '.' :: rest =>
    let name := String.mk rest
    if name ∈ keyNames then some (.named name) else none
  | _ => some (.keyCode none (some s))

/-- C9: the key-name codec round-trips.  A single printable character
key decodes back to a `KeyCode` carrying the identical character
(`from_char` yields no virtual-key code, exactly as the source's
decoder does); a named special key such as `esc` decodes back to the
same canonical `Key` member, never to a literal multi-character text
key; and the encodings of the two classes are disjoint — a
single-character encoding (length 1) can never collide with a named
encoding (the fixed `Key.` prefix makes it at least 5 characters), so
decoding is unambiguous. -/
lemma named_key_roundtrip :
    ∀ n ∈ keyNames, str_to_key (("Key.") ++ n) = some (.named n) := by
  decide

theorem key_codec_roundtrip (c : Char) (vk : Option Nat) (n : String)
    (hn : n ∈ keyNames) :
    str_to_key (key_to_str (.keyCode vk (some (String.mk [c]))))
      = some (.keyCode none (some (String.mk [c])))
    ∧ str_to_key (key_to_str (.named n)) = some (.named n)
    ∧ key_to_str (.keyCode vk (some (String.mk [c]))) ≠ key_to_str (.named n) := by
  refine ⟨?_, named_key_roundtrip n hn, ?_⟩
  · show str_to_key (String.mk [c]) = _
    unfold str_to_key
    split
    · rename_i rest heq
      have hlen := congrArg List.length heq
      simp only [List.length_cons, List.length_nil] at hlen
      omega
    · rfl
  · intro h
    have hlen := congrArg String.length h
    simp only [key_to_str] at hlen
    rw [String.length_append] at hlen
    have h1 : (String.mk [c]).length = 1 := rfl
    have h2 : ("Key.").length = 4 := rfl
    rw [h1, h2] at hlen
    omega

/-- Witness for C9 at the character `a`, no virtual-key code, and the
named key `esc`. -/
theorem key_codec_roundtrip_instance :
    str_to_key (key_to_str (.keyCode none (some (String.mk [('a')]))))
      = some (.keyCode none (some (String.mk [('a')])))
    ∧ str_to_key (key_to_str (.named ("esc"))) = some (.named ("esc"))
    ∧ key_to_str (.keyCode none (some (String.mk [('a')]))) ≠ key_to_str (.named ("esc")) :=
  key_codec_roundtrip ('a') none ("esc") (by decide)

/-! ## Capture model

`ActionRecorder` (recorder.py:33-149), embedded sequentially: the
pynput listeners invoke one handler per observed input.  Each
observed input carries the monotonic-clock reading
(`time.perf_counter()`) at the instant of the callback and the
outcome of the foreground-window query at that instant.  Once the
stop event has been set the record loop stops the listeners, so
subsequent inputs are not handled. -/

/-- The `mouse.Button` members relevant on the target platform
(`button.name` is the lowercase member name). -/
inductive MouseButton where
  | left | middle | right | x1 | x2
deriving DecidableEq, Repr

def buttonName : MouseButton → String
  | .left => ("left")
  | .middle => ("middle")
  | .right => ("right")
  | .x1 => ("x1")
  | .x2 => ("x2")

/-- The construction-time configuration of the recorder: whether the
`win32gui` import succeeded (recorder.py:11-14) and the optional
`target_hwnd` passed to `__init__` (recorder.py:34). -/
structure RecorderConfig where
  winAvailable : Bool
  targetHwnd : Option Int

/-- Outcome of `win32gui.GetForegroundWindow()` at one capture
instant: a window handle, or an exception. -/
inductive FocusQueryResult where
  | ok (hwnd : Int)
  | err
deriving DecidableEq, Repr

/-- One low-level input notification, as delivered to the
corresponding pynput handler. -/
inductive RawInput where
  | keyPress (key : PynputKey)
  | keyRelease (key : PynputKey)
  | mouseMove (x y : Int)
  | mouseClick (x y : Int) (button : MouseButton) (pressed : Bool)
  | mouseScroll (x y : Int) (dx dy : Int)
deriving DecidableEq, Repr

/-- An observed input together with the monotonic clock reading and
the focus-query outcome at the instant of the callback. -/
structure CaptureInput where
  time : ℚ
  raw : RawInput
  focus : FocusQueryResult

/-- The recorder's mutable state: `_events`, `_start_ts`,
`_stop_event` (recorder.py:35-38).  `_start_ts` is `None` until
`record` sets it; handlers only run during `record`, whose first
action sets it (and `_now_delta` asserts it is set), so it is carried
as a plain `ℚ` with `0` standing for the unset value. -/
structure RecorderState where
  events : List RecordedEvent
  startTs : ℚ
  stopFlag : Bool

/-- Initial state, `__init__` (recorder.py:34-40). -/
def initState : RecorderState := ⟨[], 0, false⟩

/-- Cooperative stop, `request_stop` (recorder.py:148-149). -/
def requestStop (st : RecorderState) : RecorderState := { st with stopFlag := true }

/-- The focus filter `_accept_event` (recorder.py:139-146): accept when no target
window is configured or `win32gui` is unavailable; otherwise compare
the foreground window with the target, accepting (fail-open) when
the query raises. -/
def acceptEvent (cfg : RecorderConfig) (focus : FocusQueryResult) : Bool :=
  match cfg.targetHwnd with
  | none => true
  | some tgt =>
    if !cfg.winAvailable then true
    else
      match focus with
      | .ok fg => fg == tgt
      | .err => true

/-- The `RecordedEvent` each handler constructs for an observed input
at elapsed time `d = now - start` (recorder.py:78-137: the payload
dict of each of the five handlers). -/
def eventFor : RawInput → ℚ → RecordedEvent
  | .keyPress k, d => ⟨("key_press"), d, [(("key"), .str (key_to_str k))]⟩
  | .keyRelease k, d => ⟨("key_release"), d, [(("key"), .str (key_to_str k))]⟩
  | .mouseMove x y, d => ⟨("mouse_move"), d, [(("x"), .num x), (("y"), .num y)]⟩
  | .mouseClick x y b p, d =>
    ⟨("mouse_click"), d,
     [(("x"), .num x), (("y"), .num y), (("button"), .str (buttonName b)),
      (("pressed"), .bool p)]⟩
  | .mouseScroll x y dx dy, d =>
    ⟨("mouse_scroll"), d,
     [(("x"), .num x), (("y"), .num y), (("dx"), .num dx), (("dy"), .num dy)]⟩

/-- One handler invocation (recorder.py:78-137).  A stopped recorder
handles nothing (the listeners are stopped).  `_on_key_release`
checks for the ESC key before the focus filter and then records the
event unconditionally and sets the stop event; every other path asks
`_accept_event` first and appends the event when accepted. -/
def handleInput (cfg : RecorderConfig) (st : RecorderState) (inp : CaptureInput) :
    RecorderState :=
  if st.stopFlag then st
  else
    match inp.raw with
    | .keyRelease k =>
      if key_to_str k = ("Key.esc") then
        { st with events := st.events ++ [eventFor (.keyRelease k) (inp.time - st.startTs)],
                  stopFlag := true }
      else if acceptEvent cfg inp.focus then
        { st with events := st.events ++ [eventFor (.keyRelease k) (inp.time - st.startTs)] }
      else st
    | raw =>
      if acceptEvent cfg inp.focus then
        { st with events := st.events ++ [eventFor raw (inp.time - st.startTs)] }
      else st

/-- Capture, `record` (recorder.py:46-75): clears the event list, takes a new
monotonic start instant, attaches the listeners and handles the
session's inputs until the stop event is set.  Note that the stop
event itself is *not* reset.  The returned state's `events` is the
payload (`[asdict(e) for e in self._events]`). -/
def record (cfg : RecorderConfig) (st : RecorderState) (startTime : ℚ)
    (inputs : List CaptureInput) : RecorderState :=
  inputs.foldl (handleInput cfg) { st with events := [], startTs := startTime }

lemma handleInput_of_stopFlag (cfg : RecorderConfig) (st : RecorderState)
    (inp : CaptureInput) (h : st.stopFlag = true) : handleInput cfg st inp = st := by
  simp [handleInput, h]

lemma handleInput_startTs (cfg : RecorderConfig) (st : RecorderState)
    (inp : CaptureInput) : (handleInput cfg st inp).startTs = st.startTs := by
  unfold handleInput
  repeat' split
  all_goals rfl

lemma handleInput_events_cases (cfg : RecorderConfig) (st : RecorderState)
    (inp : CaptureInput) :
    (handleInput cfg st inp).events = st.events ∨
    (handleInput cfg st inp).events
      = st.events ++ [eventFor inp.raw (inp.time - st.startTs)] := by
  unfold handleInput
  repeat' split
  all_goals simp_all

lemma eventFor_dt (raw : RawInput) (d : ℚ) : (eventFor raw d).dt = d := by
  cases raw <;> rfl

lemma fold_dt_pairwise (cfg : RecorderConfig) (inputs : List CaptureInput) :
    ∀ st : RecorderState,
      List.Pairwise (· ≤ ·) (st.events.map (fun e => e.dt)) →
      (∀ e ∈ st.events, ∀ inp ∈ inputs, e.dt ≤ inp.time - st.startTs) →
      List.Pairwise (· ≤ ·) (inputs.map (fun i => i.time)) →
      List.Pairwise (· ≤ ·)
        ((inputs.foldl (handleInput cfg) st).events.map (fun e => e.dt)) := by
  induction inputs with
  | nil =>
    intro st h1 _ _
    simpa using h1
  | cons inp rest ih =>
    intro st h1 h2 h3
    rw [List.map_cons, List.pairwise_cons] at h3
    obtain ⟨h3head, h3tail⟩ := h3
    rw [List.foldl_cons]
    apply ih
    · rcases handleInput_events_cases cfg st inp with hc | hc <;> rw [hc]
      · exact h1
      · rw [List.map_append, List.pairwise_append]
        refine ⟨h1, by simp, ?_⟩
        intro a ha b hb
        simp only [List.map_cons, List.map_nil, List.mem_singleton, eventFor_dt] at hb
        obtain ⟨e, he, rfl⟩ := List.mem_map.mp ha
        subst hb
        exact h2 e he inp (List.mem_cons_self _ _)
    · rw [handleInput_startTs]
      rcases handleInput_events_cases cfg st inp with hc | hc <;> rw [hc]
      · intro e he i2 hi2
        exact h2 e he i2 (List.mem_cons_of_mem _ hi2)
      · intro e he i2 hi2
        rcases List.mem_append.mp he with he | he
        · exact h2 e he i2 (List.mem_cons_of_mem _ hi2)
        · simp only [List.mem_singleton] at he
          subst he
          rw [eventFor_dt]
          have hle : inp.time ≤ i2.time :=
            h3head i2.time (List.mem_map.mpr ⟨i2, hi2, rfl⟩)
          exact sub_le_sub_right hle _
    · exact h3tail

/-- C2: for every sequence produced by a capture session, the `dt`
values are non-decreasing along the list — indeed every event
appended later has a `dt` at least that of every earlier one —
because each `dt` is `perf_counter() - start` with the same start
instant and the monotonic clock readings of successive callbacks are
non-decreasing. -/
theorem capture_dt_monotone (cfg : RecorderConfig) (st : RecorderState)
    (startT : ℚ) (inputs : List CaptureInput)
    (hclock : List.Chain' (· ≤ ·) (inputs.map (fun i => i.time))) :
    List.Pairwise (· ≤ ·)
      ((record cfg st startT inputs).events.map (fun e => e.dt)) := by
  unfold record
  apply fold_dt_pairwise
  · simp
  · simp
  · exact List.chain'_iff_pairwise.mp hclock

/-- Witness for C2: a concrete three-input session with
non-decreasing clock readings. -/
theorem capture_dt_monotone_instance :
    List.Pairwise (· ≤ ·)
      ((record ⟨true, none⟩ initState 0
          [⟨1, .mouseMove 5 6, .err⟩, ⟨2, .keyPress (.named ("esc")), .err⟩,
           ⟨3, .keyRelease (.named ("esc")), .err⟩]).events.map (fun e => e.dt)) :=
  capture_dt_monotone ⟨true, none⟩ initState 0
    [⟨1, .mouseMove 5 6, .err⟩, ⟨2, .keyPress (.named ("esc")), .err⟩,
     ⟨3, .keyRelease (.named ("esc")), .err⟩]
    (List.chain'_iff_pairwise.mpr (by decide))

/-- C3: during capture, a release of the key whose canonical
identifier is `Key.esc` always appends exactly one terminal
`key_release` event carrying that identifier and sets the stop
event — whatever the focus configuration and the foreground window
at that instant — and afterwards no further input is handled. -/
theorem esc_release_terminal (cfg : RecorderConfig) (st : RecorderState)
    (inp : CaptureInput) (k : PynputKey)
    (hrun : st.stopFlag = false) (hraw : inp.raw = .keyRelease k)
    (hesc : key_to_str k = ("Key.esc")) :
    (handleInput cfg st inp).events
      = st.events ++ [⟨("key_release"), inp.time - st.startTs,
                      [(("key"), .str ("Key.esc"))]⟩]
    ∧ (handleInput cfg st inp).stopFlag = true
    ∧ ∀ inp2, handleInput cfg (handleInput cfg st inp) inp2 = handleInput cfg st inp := by
  have hmain : handleInput cfg st inp
      = { st with events := st.events ++ [⟨("key_release"), inp.time - st.startTs,
                    [(("key"), .str ("Key.esc"))]⟩],
                  stopFlag := true } := by
    simp [handleInput, hrun, hraw, hesc, eventFor]
  refine ⟨by rw [hmain], by rw [hmain], ?_⟩
  intro inp2
  apply handleInput_of_stopFlag
  rw [hmain]

/-- Witness for C3: releasing ESC while a focus filter is configured
and the foreground window (handle 7) does not match the target
(handle 5). -/
theorem esc_release_terminal_instance :
    (handleInput ⟨true, some 5⟩ ⟨[], 0, false⟩ ⟨2, .keyRelease (.named ("esc")), .ok 7⟩).events
      = [] ++ [⟨("key_release"), (2 : ℚ) - 0, [(("key"), .str ("Key.esc"))]⟩]
    ∧ (handleInput ⟨true, some 5⟩ ⟨[], 0, false⟩ ⟨2, .keyRelease (.named ("esc")), .ok 7⟩).stopFlag = true
    ∧ ∀ inp2, handleInput ⟨true, some 5⟩
        (handleInput ⟨true, some 5⟩ ⟨[], 0, false⟩ ⟨2, .keyRelease (.named ("esc")), .ok 7⟩) inp2
        = handleInput ⟨true, some 5⟩ ⟨[], 0, false⟩ ⟨2, .keyRelease (.named ("esc")), .ok 7⟩ :=
  esc_release_terminal ⟨true, some 5⟩ ⟨[], 0, false⟩
    ⟨2, .keyRelease (.named ("esc")), .ok 7⟩ (.named ("esc")) rfl rfl rfl

/-- C8: if the foreground-window query raises during capture, the
event being filtered is accepted (fail-open) and recorded rather
than dropped. -/
theorem focus_error_fail_open (cfg : RecorderConfig) (st : RecorderState)
    (inp : CaptureInput) (hrun : st.stopFlag = false) (herr : inp.focus = .err) :
    acceptEvent cfg inp.focus = true
    ∧ (handleInput cfg st inp).events
        = st.events ++ [eventFor inp.raw (inp.time - st.startTs)] := by
  have hacc : acceptEvent cfg inp.focus = true := by
    rw [herr]
    unfold acceptEvent
    repeat' split
    all_goals simp_all
  refine ⟨hacc, ?_⟩
  cases hraw : inp.raw <;> simp [handleInput, hrun, hraw, hacc]
  split <;> simp

/-- Witness for C8: a mouse move filtered against target handle 5
while the focus query raises. -/
theorem focus_error_fail_open_instance :
    acceptEvent ⟨true, some 5⟩ (⟨2, .mouseMove 1 2, .err⟩ : CaptureInput).focus = true
    ∧ (handleInput ⟨true, some 5⟩ ⟨[], 0, false⟩ ⟨2, .mouseMove 1 2, .err⟩).events
        = [] ++ [eventFor (.mouseMove 1 2) ((2 : ℚ) - 0)] :=
  focus_error_fail_open ⟨true, some 5⟩ ⟨[], 0, false⟩ ⟨2, .mouseMove 1 2, .err⟩ rfl rfl

/-- C10: when the `win32gui` import failed, the focus filter accepts
every event unconditionally even though a target window was
supplied; no event is ever dropped by filtering. -/
theorem win32gui_missing_accepts_all (tgt : Int) (st : RecorderState)
    (inp : CaptureInput) (hrun : st.stopFlag = false) :
    acceptEvent ⟨false, some tgt⟩ inp.focus = true
    ∧ (handleInput ⟨false, some tgt⟩ st inp).events
        = st.events ++ [eventFor inp.raw (inp.time - st.startTs)] := by
  have hacc : acceptEvent ⟨false, some tgt⟩ inp.focus = true := rfl
  refine ⟨hacc, ?_⟩
  cases hraw : inp.raw <;> simp [handleInput, hrun, hraw, hacc]
  split <;> simp

/-- Witness for C10: a key press recorded although the foreground
window (handle 9) differs from the target (handle 5), because
`win32gui` is unavailable. -/
theorem win32gui_missing_accepts_all_instance :
    acceptEvent ⟨false, some 5⟩ (⟨1, .keyPress (.keyCode none (some ("a"))), .ok 9⟩ : CaptureInput).focus = true
    ∧ (handleInput ⟨false, some 5⟩ ⟨[], 0, false⟩ ⟨1, .keyPress (.keyCode none (some ("a"))), .ok 9⟩).events
        = [] ++ [eventFor (.keyPress (.keyCode none (some ("a")))) ((1 : ℚ) - 0)] :=
  win32gui_missing_accepts_all 5 ⟨[], 0, false⟩
    ⟨1, .keyPress (.keyCode none (some ("a"))), .ok 9⟩ rfl

/-- The terminal ESC-release event at elapsed time `d`. -/
def escEvent (d : ℚ) : RecordedEvent :=
  ⟨("key_release"), d, [(("key"), .str ("Key.esc"))]⟩

/-- The foreground-window query succeeded and returned a window other
than the target. -/
def focusMismatch (tgt : Int) : FocusQueryResult → Bool
  | .ok fg => fg != tgt
  | .err => false

lemma acceptEvent_of_mismatch (tgt : Int) (f : FocusQueryResult)
    (h : focusMismatch tgt f = true) : acceptEvent ⟨true, some tgt⟩ f = false := by
  cases f <;> simp_all [focusMismatch, acceptEvent]

lemma fold_mismatch_invariant (tgt : Int) :
    ∀ (inputs : List CaptureInput) (st : RecorderState),
      (∀ inp ∈ inputs, focusMismatch tgt inp.focus = true) →
      ((st.events = [] ∧ st.stopFlag = false) ∨
        (∃ d, st.events = [escEvent d] ∧ st.stopFlag = true)) →
      (((inputs.foldl (handleInput ⟨true, some tgt⟩) st).events = [] ∧
          (inputs.foldl (handleInput ⟨true, some tgt⟩) st).stopFlag = false) ∨
        (∃ d, (inputs.foldl (handleInput ⟨true, some tgt⟩) st).events = [escEvent d] ∧
          (inputs.foldl (handleInput ⟨true, some tgt⟩) st).stopFlag = true))
      ∧ (((∃ inp ∈ inputs, ∃ k, inp.raw = .keyRelease k ∧ key_to_str k = ("Key.esc"))
            ∨ st.stopFlag = true) →
          (inputs.foldl (handleInput ⟨true, some tgt⟩) st).stopFlag = true) := by
  intro inputs
  induction inputs with
  | nil =>
    intro st _ hP
    refine ⟨by simpa using hP, ?_⟩
    rintro (⟨inp, hmem, _⟩ | hstop)
    · exact absurd hmem (List.not_mem_nil _)
    · simpa using hstop
  | cons inp rest ih =>
    intro st hfoc hP
    have hfoc' : ∀ i ∈ rest, focusMismatch tgt i.focus = true :=
      fun i hi => hfoc i (List.mem_cons_of_mem _ hi)
    have hfochd : focusMismatch tgt inp.focus = true :=
      hfoc inp (List.mem_cons_self _ _)
    rw [List.foldl_cons]
    by_cases hstop : st.stopFlag = true
    · rw [handleInput_of_stopFlag _ _ _ hstop]
      have hres := ih st hfoc' hP
      exact ⟨hres.1, fun _ => hres.2 (Or.inr hstop)⟩
    · have hstop' : st.stopFlag = false := by simpa using hstop
      have hev : st.events = [] := by
        rcases hP with ⟨h, _⟩ | ⟨d, _, hflag⟩
        · exact h
        · exact absurd hflag hstop
      by_cases hesc : ∃ k, inp.raw = .keyRelease k ∧ key_to_str k = ("Key.esc")
      · obtain ⟨k, hk, hkey⟩ := hesc
        have hst' : handleInput ⟨true, some tgt⟩ st inp
            = { st with events := st.events ++ [escEvent (inp.time - st.startTs)],
                        stopFlag := true } := by
          simp [handleInput, hstop', hk, hkey, eventFor, escEvent]
        rw [hst']
        have hres := ih
            { st with events := st.events ++ [escEvent (inp.time - st.startTs)],
                      stopFlag := true }
            hfoc' (Or.inr ⟨inp.time - st.startTs, by simp [hev], rfl⟩)
        exact ⟨hres.1, fun _ => hres.2 (Or.inr rfl)⟩
      · have hacc := acceptEvent_of_mismatch tgt inp.focus hfochd
        have hst' : handleInput ⟨true, some tgt⟩ st inp = st := by
          cases hraw : inp.raw
          case keyRelease k =>
            have hkne : key_to_str k ≠ ("Key.esc") := fun hkey => hesc ⟨k, hraw, hkey⟩
            simp [handleInput, hstop', hacc, hkne, hraw]
          all_goals simp [handleInput, hstop', hacc, hraw]
        rw [hst']
        have hres := ih st hfoc' hP
        refine ⟨hres.1, ?_⟩
        rintro (⟨i, hi, hkesc⟩ | hflag)
        · rcases List.mem_cons.mp hi with rfl | hi
          · exact absurd hkesc hesc
          · exact hres.2 (Or.inl ⟨i, hi, hkesc⟩)
        · exact absurd hflag hstop

/-- C7: in a capture session constructed with a target window whose
foreground query never matches the target at any capture instant,
the resulting sequence is empty or exactly the single terminal
ESC-release event; and when the session was stopped by an observed
ESC release, it is exactly that one event.  Every other key press,
key release, mouse move, mouse click and mouse scroll is dropped by
the focus filter. -/
theorem focus_never_match_only_esc (tgt : Int) (startT : ℚ)
    (inputs : List CaptureInput)
    (hfoc : ∀ inp ∈ inputs, focusMismatch tgt inp.focus = true) :
    ((record ⟨true, some tgt⟩ initState startT inputs).events = []
      ∨ ∃ d, (record ⟨true, some tgt⟩ initState startT inputs).events = [escEvent d])
    ∧ ((∃ inp ∈ inputs, ∃ k, inp.raw = .keyRelease k ∧ key_to_str k = ("Key.esc")) →
        ∃ d, (record ⟨true, some tgt⟩ initState startT inputs).events = [escEvent d]) := by
  have hres := fold_mismatch_invariant tgt inputs
      { initState with events := [], startTs := startT } (by simpa using hfoc)
      (Or.inl ⟨rfl, rfl⟩)
  have hfold : record ⟨true, some tgt⟩ initState startT inputs
      = inputs.foldl (handleInput ⟨true, some tgt⟩)
          { initState with events := [], startTs := startT } := rfl
  constructor
  · rw [hfold]
    rcases hres.1 with ⟨h, _⟩ | ⟨d, h, _⟩
    · exact Or.inl h
    · exact Or.inr ⟨d, h⟩
  · intro hex
    rw [hfold]
    have hflag := hres.2 (Or.inl hex)
    rcases hres.1 with ⟨_, hno⟩ | ⟨d, h, _⟩
    · rw [hno] at hflag
      exact absurd hflag (by simp)
    · exact ⟨d, h⟩

/-- Witness for C7: target handle 5, foreground handle 7 throughout;
a key press, a mouse move, a mouse click and a scroll are all
dropped, and the ESC release terminates the session as its only
recorded event. -/
theorem focus_never_match_only_esc_instance :
    ((record ⟨true, some 5⟩ initState 0
        [⟨1, .keyPress (.keyCode none (some ("a"))), .ok 7⟩,
         ⟨2, .mouseMove 10 20, .ok 7⟩,
         ⟨3, .mouseClick 10 20 .left true, .ok 7⟩,
         ⟨4, .mouseScroll 10 20 0 1, .ok 7⟩,
         ⟨5, .keyRelease (.named ("esc")), .ok 7⟩]).events = []
      ∨ ∃ d, (record ⟨true, some 5⟩ initState 0
        [⟨1, .keyPress (.keyCode none (some ("a"))), .ok 7⟩,
         ⟨2, .mouseMove 10 20, .ok 7⟩,
         ⟨3, .mouseClick 10 20 .left true, .ok 7⟩,
         ⟨4, .mouseScroll 10 20 0 1, .ok 7⟩,
         ⟨5, .keyRelease (.named ("esc")), .ok 7⟩]).events = [escEvent d])
    ∧ ((∃ inp ∈ ([⟨1, .keyPress (.keyCode none (some ("a"))), .ok 7⟩,
         ⟨2, .mouseMove 10 20, .ok 7⟩,
         ⟨3, .mouseClick 10 20 .left true, .ok 7⟩,
         ⟨4, .mouseScroll 10 20 0 1, .ok 7⟩,
         ⟨5, .keyRelease (.named ("esc")), .ok 7⟩] : List CaptureInput),
           ∃ k, inp.raw = .keyRelease k ∧ key_to_str k = ("Key.esc")) →
        ∃ d, (record ⟨true, some 5⟩ initState 0
        [⟨1, .keyPress (.keyCode none (some ("a"))), .ok 7⟩,
         ⟨2, .mouseMove 10 20, .ok 7⟩,
         ⟨3, .mouseClick 10 20 .left true, .ok 7⟩,
         ⟨4, .mouseScroll 10 20 0 1, .ok 7⟩,
         ⟨5, .keyRelease (.named ("esc")), .ok 7⟩]).events = [escEvent d]) :=
  focus_never_match_only_esc 5 0
    [⟨1, .keyPress (.keyCode none (some ("a"))), .ok 7⟩,
     ⟨2, .mouseMove 10 20, .ok 7⟩,
     ⟨3, .mouseClick 10 20 .left true, .ok 7⟩,
     ⟨4, .mouseScroll 10 20 0 1, .ok 7⟩,
     ⟨5, .keyRelease (.named ("esc")), .ok 7⟩]
    (by decide)

lemma foldl_handleInput_stopped (cfg : RecorderConfig) :
    ∀ (inputs : List CaptureInput) (st : RecorderState), st.stopFlag = true →
      inputs.foldl (handleInput cfg) st = st := by
  intro inputs
  induction inputs with
  | nil => intro st _; rfl
  | cons inp rest ih =>
    intro st h
    rw [List.foldl_cons, handleInput_of_stopFlag cfg st inp h]
    exact ih st h

/-- C6 (amended): `record` resets the event list and the start
instant — the new session's outcome depends on the previous state
only through the stop flag — but it does **not** clear the stop
event.  Consequently, when the previous session of the same recorder
was stopped (via ESC or `request_stop`), a further `record` call
returns immediately with an empty payload instead of capturing a
fresh session. -/
theorem record_resets_except_stop_flag (cfg : RecorderConfig) (st : RecorderState)
    (startT : ℚ) (inputs : List CaptureInput) (h : st.stopFlag = true) :
    record cfg st startT inputs
      = inputs.foldl (handleInput cfg) ⟨[], startT, st.stopFlag⟩
    ∧ record cfg st startT inputs = ⟨[], startT, true⟩ := by
  refine ⟨rfl, ?_⟩
  unfold record
  have : ({ st with events := [], startTs := startT } : RecorderState)
      = ⟨[], startT, true⟩ := by
    cases st
    simp_all
  rw [this]
  exact foldl_handleInput_stopped cfg inputs _ rfl

/-- Witness for C6 (amended): a stopped recorder fed a fresh input. -/
theorem record_resets_except_stop_flag_instance :
    record ⟨true, none⟩ (⟨[], 0, true⟩ : RecorderState) 2
        [⟨3, .keyPress (.keyCode none (some ("a"))), .err⟩]
      = [⟨3, .keyPress (.keyCode none (some ("a"))), .err⟩].foldl
          (handleInput ⟨true, none⟩) ⟨[], 2, (⟨[], 0, true⟩ : RecorderState).stopFlag⟩
    ∧ record ⟨true, none⟩ (⟨[], 0, true⟩ : RecorderState) 2
        [⟨3, .keyPress (.keyCode none (some ("a"))), .err⟩]
      = ⟨[], 2, true⟩ :=
  record_resets_except_stop_flag ⟨true, none⟩ ⟨[], 0, true⟩ 2
    [⟨3, .keyPress (.keyCode none (some ("a"))), .err⟩] rfl

/-- C6 counterexample: the claim asserts that every `record` call
begins a fresh blocking session even after the same recorder was
stopped.  In fact the stop event is never cleared: after a first
session stopped by ESC (or by `request_stop`), a second `record`
call ignores every input of its session and returns an empty
payload, while the very same inputs on a truly fresh recorder do
produce the event. -/
theorem record_not_fresh_after_stop :
    (record ⟨true, none⟩
        (record ⟨true, none⟩ initState 0 [⟨1, .keyRelease (.named ("esc")), .err⟩])
        2 [⟨3, .keyPress (.keyCode none (some ("a"))), .err⟩]).events = []
    ∧ (record ⟨true, none⟩ (requestStop initState) 2
        [⟨3, .keyPress (.keyCode none (some ("a"))), .err⟩]).events = []
    ∧ (record ⟨true, none⟩ initState 2
        [⟨3, .keyPress (.keyCode none (some ("a"))), .err⟩]).events
      = [⟨("key_press"), 3 - 2, [(("key"), .str ("a"))]⟩] := by
  refine ⟨?_, ?_, ?_⟩ <;> rfl

/-! ## Replay model

`ActionReplayer` (recorder.py:152-186).  The timing loop
(`_sleep_until`) delays dispatch but does not change which synthetic
inputs are emitted, so it is elided here.  Emission of one synthetic
action may raise (the environment rejecting synthetic input); this
is modelled by an oracle `emitOk`.  There is no exception handling
anywhere in `replay` or `_dispatch`: any exception propagates and
ends the run. -/

/-- One synthetic input operation requested from the emitters
(`keyboard.Controller` / `mouse.Controller`).  Position and scroll
payloads are passed through unchecked, as the source does. -/
inductive SynthAction where
  | pressKey (k : PynputKey)
  | releaseKey (k : PynputKey)
  | setPos (x y : JsonVal)
  | pressButton (b : MouseButton)
  | releaseButton (b : MouseButton)
  | scroll (dx dy : JsonVal)

/-- The Python exceptions a replay step can raise:
`KeyError` reading a missing `data` field, a `TypeError` or
`AttributeError` where a string name was required, an
`AttributeError` from `getattr` on an unknown `Key`/`Button` member
name, or an exception from the synthetic-input emitter. -/
inductive ReplayError where
  | missingField (field : String)
  | badFieldType
  | badName (name : String)
  | emitFailure (a : SynthAction)

/-- Python truthiness of a JSON-decoded value
(`if ev.data["pressed"]:`, recorder.py:181). -/
def jsonTruthy : JsonVal → Bool
  | .str s => !(s.isEmpty)
  | .num q => decide (q ≠ 0)
  | .bool b => b
  | .obj kvs => !(kvs.isEmpty)
  | .arr xs => !(xs.isEmpty)

/-- Button lookup, `getattr(mouse.Button, name)` (recorder.py:180). -/
def buttonFromName (s : String) : Option MouseButton :=
  if s = ("left") then some .left
  else if s = ("middle") then some .middle
  else if s = ("right") then some .right
  else if s = ("x1") then some .x1
  else if s = ("x2") then some .x2
  else none

/-- Dispatch of one event, `_dispatch` (recorder.py:170-186): selects on `ev.t`, reads the
kind's required `data` fields in source order, and requests the
corresponding synthetic action.  An event kind matching no branch
falls through and requests nothing. -/
def dispatch (ev : RecordedEvent) : Except ReplayError (List SynthAction) :=
  if ev.t = ("key_press") then
    match lookupField ev.data ("key") with
    | none => .error (.missingField ("key"))
    | some (.str s) =>
      match str_to_key s with
      | some k => .ok [.pressKey k]
      | none => .error (.badName s)
    | some _ => .error .badFieldType
  else if ev.t = ("key_release") then
    match lookupField ev.data ("key") with
    | none => .error (.missingField ("key"))
    | some (.str s) =>
      match str_to_key s with
      | some k => .ok [.releaseKey k]
      | none => .error (.badName s)
    | some _ => .error .badFieldType
  else if ev.t = ("mouse_move") then
    match lookupField ev.data ("x") with
    | none => .error (.missingField ("x"))
    | some vx =>
      match lookupField ev.data ("y") with
      | none => .error (.missingField ("y"))
      | some vy => .ok [.setPos vx vy]
  else if ev.t = ("mouse_click") then
    match lookupField ev.data ("button") with
    | none => .error (.missingField ("button"))
    | some (.str bs) =>
      match buttonFromName bs with
      | none => .error (.badName bs)
      | some b =>
        match lookupField ev.data ("pressed") with
        | none => .error (.missingField ("pressed"))
        | some pv => .ok [if jsonTruthy pv then .pressButton b else .releaseButton b]
    | some _ => .error .badFieldType
  else if ev.t = ("mouse_scroll") then
    match lookupField ev.data ("dx") with
    | none => .error (.missingField ("dx"))
    | some dx =>
      match lookupField ev.data ("dy") with
      | none => .error (.missingField ("dy"))
      | some dy => .ok [.scroll dx dy]
  else .ok []

/-- Outcome of a replay run: the synthetic actions successfully
emitted in order, and the exception that ended the run early, if
any. -/
structure ReplayOutcome where
  emitted : List SynthAction
  error : Option ReplayError

/-- The dispatch loop of `replay` (recorder.py:164-168), driven by
the emit oracle: events are processed strictly in order; an
exception — from reading a record's fields or from the emitter —
propagates immediately and nothing further is dispatched. -/
def replayRun (emitOk : SynthAction → Bool) : List RecordedEvent → ReplayOutcome
  | [] => ⟨[], none⟩
  | ev :: rest =>
    match dispatch ev with
    | .error e => ⟨[], some e⟩
    | .ok acts =>
      match acts.find? (fun a => !(emitOk a)) with
      | some a => ⟨acts.takeWhile emitOk, some (.emitFailure a)⟩
      | none =>
        let out := replayRun emitOk rest
        ⟨acts ++ out.emitted, out.error⟩

/-- Full replay, `replay` end to end (recorder.py:157-168): the whole file is
parsed into events before the first dispatch (`none` models a parse
exception, which therefore precedes any synthetic input). -/
def replay (emitOk : SynthAction → Bool) (payload : JsonVal) : Option ReplayOutcome :=
  (deserialize payload).map (replayRun emitOk)

/-- The actions a successfully dispatched event requests. -/
def okActions (e : RecordedEvent) : List SynthAction :=
  match dispatch e with
  | .ok acts => acts
  | .error _ => []

/-- A valid `mouse_move` record. -/
def mvEvent (x y d : ℚ) : RecordedEvent :=
  ⟨("mouse_move"), d, [(("x"), .num x), (("y"), .num y)]⟩

/-- A record with an event kind none of the dispatch branches knows. -/
def unknownKindEvent : RecordedEvent := ⟨("mouse_wiggle"), 0, []⟩

/-- A `mouse_click` record whose `data` lacks the required `button`
field. -/
def clickWithoutButton : RecordedEvent :=
  ⟨("mouse_click"), 0, [(("x"), .num 1), (("y"), .num 2), (("pressed"), .bool true)]⟩

/-- C4 counterexample: the claim says an unknown event kind fails
with a `MalformedRecording` condition before any synthetic input is
emitted for that record.  In fact `_dispatch` has no else branch: a
record of kind `mouse_wiggle` placed after two valid records is
silently skipped — the run finishes with no error at all (and no
synthetic input for that record). -/
theorem replay_unknown_kind_no_failure :
    replayRun (fun _ => true) [mvEvent 1 2 0, mvEvent 3 4 1, unknownKindEvent]
      = ⟨[.setPos (.num 1) (.num 2), .setPos (.num 3) (.num 4)], none⟩ := rfl

/-- C4 (amended): during replay, a record of a *known* kind whose
`data` is missing a required field fails (the `KeyError` is the
`MalformedRecording` condition) before any synthetic input is
emitted for that record, and the valid records preceding the
failure point have already been dispatched and are not rolled back;
a record of *unknown* kind, by contrast, does not fail — it is
silently skipped and nothing is emitted for it. -/
theorem replay_malformed_after_valid_records (emitOk : SynthAction → Bool)
    (pre : List RecordedEvent) (bad : RecordedEvent) (post : List RecordedEvent)
    (err : ReplayError)
    (hpre : ∀ e ∈ pre, ∃ acts, dispatch e = .ok acts ∧ acts.all emitOk = true)
    (hbad : dispatch bad = .error err) :
    replayRun emitOk (pre ++ bad :: post) = ⟨pre.flatMap okActions, some err⟩ := by
  induction pre with
  | nil =>
    simp only [List.nil_append, List.flatMap_nil]
    unfold replayRun
    rw [hbad]
  | cons e pre ih =>
    obtain ⟨acts, hdisp, hall⟩ := hpre e (List.mem_cons_self _ _)
    have hfind : acts.find? (fun a => !(emitOk a)) = none := by
      rw [List.find?_eq_none]
      intro a ha
      simp [List.all_eq_true.mp hall a ha]
    have ihres := ih (fun e he => hpre e (List.mem_cons_of_mem _ he))
    rw [List.cons_append]
    unfold replayRun
    rw [hdisp]
    simp only [hfind]
    rw [ihres]
    simp [okActions, hdisp, List.flatMap_cons]

/-- Witness for C4 (amended): two valid mouse moves followed by a
`mouse_click` lacking `button`; the two moves are dispatched, the
malformed record raises before emitting anything. -/
theorem replay_malformed_after_valid_records_instance :
    replayRun (fun _ => true) [mvEvent 1 2 0, mvEvent 3 4 1, clickWithoutButton]
      = ⟨[mvEvent 1 2 0, mvEvent 3 4 1].flatMap okActions,
         some (.missingField ("button"))⟩ :=
  replay_malformed_after_valid_records (fun _ => true) [mvEvent 1 2 0, mvEvent 3 4 1]
    clickWithoutButton [] (.missingField ("button"))
    (by intro e he
        rcases List.mem_cons.mp he with rfl | he
        · exact ⟨_, rfl, rfl⟩
        · rcases List.mem_cons.mp he with rfl | he
          · exact ⟨_, rfl, rfl⟩
          · exact absurd he (List.not_mem_nil _))
    rfl

/-- C5 counterexample: the claim says a failure while emitting one
synthetic event is tolerated and the replay continues with the
remaining events.  In fact there is no exception handling: with an
emitter that rejects the first action, the run ends at the first
event — the second valid event is never dispatched. -/
theorem replay_emit_failure_aborts :
    replayRun (fun _ => false) [mvEvent 1 2 0, mvEvent 3 4 1]
      = ⟨[], some (.emitFailure (.setPos (.num 1) (.num 2)))⟩ := rfl

/-- C5 (amended): an exception while emitting a synthetic input is
fatal to the whole run, not just to that event: the failure
propagates immediately and none of the remaining events of the
sequence is dispatched. -/
theorem emit_failure_fatal (emitOk : SynthAction → Bool) (ev : RecordedEvent)
    (rest : List RecordedEvent) (acts : List SynthAction) (a : SynthAction)
    (hdisp : dispatch ev = .ok acts)
    (hfail : acts.find? (fun x => !(emitOk x)) = some a) :
    replayRun emitOk (ev :: rest) = ⟨acts.takeWhile emitOk, some (.emitFailure a)⟩ := by
  unfold replayRun
  rw [hdisp]
  simp only [hfail]

/-- Witness for C5 (amended): the emitter rejects the single action
of the first event; the second event is not dispatched regardless of
its presence. -/
theorem emit_failure_fatal_instance :
    replayRun (fun _ => false) [mvEvent 5 6 0, mvEvent 7 8 1]
      = ⟨[.setPos (.num 5) (.num 6)].takeWhile (fun _ => false),
         some (.emitFailure (.setPos (.num 5) (.num 6)))⟩ :=
  emit_failure_fatal (fun _ => false) (mvEvent 5 6 0) [mvEvent 7 8 1]
    [.setPos (.num 5) (.num 6)] (.setPos (.num 5) (.num 6)) rfl rfl

end GameTest
